import Mathlib

/-!
Verification of the iBenthos geotagging tool against its specification.

The definitions below are a shallow embedding of the Python sources:
  * `src/controller.py`   — `GeotagWorker` (`_process_image`, `run`), `_get_images`,
                            `MainController.run_geotagging_process`
  * `src/timezones.py`    — `TIMEZONES`, `Timezone.__init__`
  * `src/models/feedback_model.py` — `FeedbackModel.updateProgress` / `addFeedbackLine`
  * `src/models/user_input_model.py` — `UserInputModelValidator`
External effects (file system, exiftool, the geotag_pt library) are modelled by
oracle values describing the outcome of each call site, so that the control flow
of the Python code is reproduced exactly.
-/

set_option autoImplicit false

namespace Geotag

/-- Python exception values that can arise at the call sites of
`GeotagWorker._process_image` (src/controller.py).  `generate_gps_tags` raises
`IndexError` for out-of-track-range and `AssertionError` for a missing
timestamp; `kml_gen.add_image_point` can raise `KeyError`; everything else
(metadata read, mkdir, copy, tag write, IFDO update) can raise OS-level or
other exceptions. -/
inductive PyExc where
  | indexError
  | assertionError
  | keyError (msg : String)
  | osError
  | otherError (msg : String)
  deriving DecidableEq, Repr

/-- Signals emitted by `GeotagWorker` (src/controller.py lines 58-60):
`error_msgs : Signal(str)`, `progress : Signal(int, int)`, `finished : Signal(str)`. -/
inductive Event where
  | errorMsg (s : String)
  | progress (cur total : Nat)
  | finished (s : String)
  deriving DecidableEq, Repr

/-- Outcome oracle for the external calls made while processing one image in
`GeotagWorker._process_image` (src/controller.py lines 102-150).  Each field
records what the corresponding Python call would do for this image.  The data
returned by successful calls (EXIF dictionaries, tag dictionaries) does not
influence the control flow of `_process_image`, so successes carry `Unit`. -/
structure ImageEnv where
  /-- The value of `str(image_fn)`, used in the diagnostic messages. -/
  path : String
  /-- The value of `image_fn.relative_to(self.config.import_dir)` as a string. -/
  relPath : String
  /-- Outcome of `et.get_metadata(str(image_fn))[0]` — outside every `try`, so any
  exception here propagates. -/
  getMetadata : Except PyExc Unit
  /-- Outcome of `self.config.tagger.generate_gps_tags(...)` — inside the `try` that
  catches `IndexError` and `AssertionError`. -/
  generateGpsTags : Except PyExc Unit
  /-- Outcome of `save_fn.parent.mkdir(parents=True, exist_ok=True)` — not guarded. -/
  mkdirParents : Except PyExc Unit
  /-- Value of `save_fn.parent.exists()` evaluated after the `mkdir` call. -/
  parentExistsAfterMkdir : Bool
  /-- Outcome of `shutil.copy2(image_fn, save_fn)` — not guarded. -/
  copy2 : Except PyExc Unit
  /-- Outcome of `et.set_tags(...)` — not guarded. -/
  setTags : Except PyExc Unit
  /-- Outcome of `self.add_to_ifdo(...)` — not guarded; only called when an IFDO model
  is configured. -/
  addToIfdo : Except PyExc Unit
  /-- Outcome of `kml_gen.add_image_point(save_fn)` — inside a `try` that catches
  `KeyError`; only called when KML export is enabled. -/
  addKmlPoint : Except PyExc Unit

/-- The two configuration switches of `GeotagWorkerConfig` that affect the
control flow of `_process_image`: whether `ifdo_model` is present and whether
`kml_export` is set (src/controller.py lines 38-52). -/
structure WorkerConfig where
  ifdoEnabled : Bool
  kmlExport : Bool
  deriving DecidableEq, Repr

/-- Message emitted for an `IndexError` from `generate_gps_tags`
(src/controller.py line 116). -/
def rangeMsg (p : String) : String :=
  "Image " ++ p ++ " not within range of GPX file. Skipping this image."

/-- Message emitted for an `AssertionError` from `generate_gps_tags`
(src/controller.py line 125). -/
def noTimeMsg (p : String) : String :=
  "Image " ++ p ++ " does not contain time data. Skipping this image."

/-- Message emitted for a `KeyError` from `kml_gen.add_image_point`
(src/controller.py line 149). -/
def kmlMsg (p m : String) : String :=
  "Missing GPS data in image " ++ p ++ ": " ++ m

/-- Payload of the `finished` signal (src/controller.py line 177). -/
def finishedMsg : String := "Finished geotagging images."

/-- Result of processing one image: the `error_msgs` signals emitted, the
relative paths copied into the export directory (the copy is performed by
`shutil.copy2` and is not rolled back if a later step raises), and the
exception, if any, that propagates out of `_process_image`. -/
structure ImgResult where
  events : List Event
  copied : List String
  exc : Option PyExc
  deriving DecidableEq, Repr

/-- Shallow embedding of `GeotagWorker._process_image`
(src/controller.py lines 102-150), transcribing its control flow:
only `IndexError` and `AssertionError` from `generate_gps_tags` and
`KeyError` from `add_image_point` are caught; a failed post-`mkdir`
existence check is logged (no signal) and skips the file; every other
exception propagates to the caller. -/
def processImage (cfg : WorkerConfig) (env : ImageEnv) : ImgResult :=
  match env.getMetadata with
  | .error e => ⟨[], [], some e⟩
  | .ok _ =>
    match env.generateGpsTags with
    | .error .indexError => ⟨[.errorMsg (rangeMsg env.path)], [], none⟩
    | .error .assertionError => ⟨[.errorMsg (noTimeMsg env.path)], [], none⟩
    | .error e => ⟨[], [], some e⟩
    | .ok _ =>
      match env.mkdirParents with
      | .error e => ⟨[], [], some e⟩
      | .ok _ =>
        if env.parentExistsAfterMkdir = false then ⟨[], [], none⟩
        else
          match env.copy2 with
          | .error e => ⟨[], [], some e⟩
          | .ok _ =>
            match env.setTags with
            | .error e => ⟨[], [env.relPath], some e⟩
            | .ok _ =>
              match (if cfg.ifdoEnabled then env.addToIfdo else .ok ()) with
              | .error e => ⟨[], [env.relPath], some e⟩
              | .ok _ =>
                if cfg.kmlExport then
                  match env.addKmlPoint with
                  | .error (.keyError m) =>
                      ⟨[.errorMsg (kmlMsg env.path m)], [env.relPath], none⟩
                  | .error e => ⟨[], [env.relPath], some e⟩
                  | .ok _ => ⟨[], [env.relPath], none⟩
                else ⟨[], [env.relPath], none⟩

/-- Aggregate result of `GeotagWorker.run`: all signals emitted in order, all
files copied into the export tree, and the exception, if any, that escapes
`run`. -/
structure RunResult where
  events : List Event
  copied : List String
  exc : Option PyExc
  deriving DecidableEq, Repr

/-- The loop of `GeotagWorker.run` (src/controller.py lines 163-166):
`for idx, image_fn in enumerate(image_list): self._process_image(...);
self.progress.emit(idx, total_images)`, followed by the optional IFDO/KML
save and `self.finished.emit(...)`.  An exception escaping `_process_image`
aborts the loop and escapes `run`. -/
def runFrom (cfg : WorkerConfig) (total : Nat) : Nat → List ImageEnv → RunResult
  | _, [] => ⟨[.finished finishedMsg], [], none⟩
  | idx, env :: rest =>
    match (processImage cfg env).exc with
    | some e => ⟨(processImage cfg env).events, (processImage cfg env).copied, some e⟩
    | none =>
      ⟨(processImage cfg env).events ++ [.progress idx total]
         ++ (runFrom cfg total (idx + 1) rest).events,
       (processImage cfg env).copied ++ (runFrom cfg total (idx + 1) rest).copied,
       (runFrom cfg total (idx + 1) rest).exc⟩

/-- Shallow embedding of `GeotagWorker.run` (src/controller.py lines 152-177)
on an already enumerated image list. -/
def runWorker (cfg : WorkerConfig) (envs : List ImageEnv) : RunResult :=
  runFrom cfg envs.length 0 envs

/-- Predicate `benign cfg env` holds exactly when every exception arising while
processing `env` is one of those `_process_image` catches, i.e. when
processing this image cannot abort the batch.  Stated structurally,
independently of `processImage`. -/
def benign (cfg : WorkerConfig) (env : ImageEnv) : Bool :=
  match env.getMetadata with
  | .error _ => false
  | .ok _ =>
    match env.generateGpsTags with
    | .error .indexError => true
    | .error .assertionError => true
    | .error _ => false
    | .ok _ =>
      match env.mkdirParents with
      | .error _ => false
      | .ok _ =>
        if env.parentExistsAfterMkdir = false then true
        else
          match env.copy2 with
          | .error _ => false
          | .ok _ =>
            match env.setTags with
            | .error _ => false
            | .ok _ =>
              (match (if cfg.ifdoEnabled then env.addToIfdo else .ok ()) with
               | .error _ => false
               | .ok _ => true)
              &&
              (if cfg.kmlExport then
                 match env.addKmlPoint with
                 | .error (.keyError _) => true
                 | .error _ => false
                 | .ok _ => true
               else true)

/-- An image is tagged (copied to the export tree and written) exactly when
tag generation succeeds and the post-`mkdir` existence check passes. -/
def tagged (env : ImageEnv) : Bool :=
  (match env.generateGpsTags with | .ok _ => true | .error _ => false)
    && env.parentExistsAfterMkdir

/-- An image whose tag generation fails with the out-of-track-range
(`IndexError`) or missing-timestamp (`AssertionError`) condition: the two
skip reasons of the specification. -/
def skipsAtTagGen (env : ImageEnv) : Bool :=
  match env.generateGpsTags with
  | .error .indexError => true
  | .error .assertionError => true
  | _ => false

/-- The `(cur, total)` payloads of the `progress` signals of an event list,
in emission order. -/
def progressEvents : List Event → List (Nat × Nat)
  | [] => []
  | .progress c t :: r => (c, t) :: progressEvents r
  | .errorMsg _ :: r => progressEvents r
  | .finished _ :: r => progressEvents r

/-- Recognizer for the `finished` signal. -/
def isFinishedEv : Event → Bool
  | .finished _ => true
  | _ => false

/-- The user-visible state driven by `FeedbackModel` and the view: the
progress-bar percentage and the accumulated feedback lines. -/
structure UiState where
  progressBar : Nat
  feedback : List String
  deriving DecidableEq, Repr

/-- The text a signal contributes to the feedback log: `error_msgs` and
`finished` are both connected to `FeedbackModel.addFeedbackLine`
(src/controller.py lines 376-377). -/
def msgOf : Event → Option String
  | .errorMsg s => some s
  | .finished s => some s
  | .progress _ _ => none

/-- Effect of one worker signal on the UI state, following the connections in
`MainController.run_geotagging_process`: `progress` drives
`FeedbackModel.updateProgress` (src/models/feedback_model.py lines 62-73,
`int((current/max)*100)`, 0 when `max` is 0), and `error_msgs`/`finished`
append a feedback line. -/
def applyEvent (st : UiState) : Event → UiState
  | .progress c t => { st with progressBar := if 0 < t then c * 100 / t else 0 }
  | .errorMsg s => { st with feedback := st.feedback ++ [s] }
  | .finished s => { st with feedback := st.feedback ++ [s] }

/-- Final user-visible state after a batch run: the worker's signals are
folded into the UI; if the `finished` signal fired, the worker thread quits
and the `workerthread.finished` hook sets the progress bar to 100
(src/controller.py lines 375 and 382). -/
def finalUiState (r : RunResult) : UiState :=
  let st := r.events.foldl applyEvent ⟨0, []⟩
  if r.events.any isFinishedEv then { st with progressBar := 100 } else st

/-! ### Position interpolation (spec §4.3)

The Position Interpolator lives in the external `geotag_pt` library
(imported by src/controller.py but not part of src/), so it is modelled from
the specification's contract. -/

/-- A timestamped GPS fix (spec §3): timestamp as an instant (seconds),
latitude/longitude/elevation as exact rationals. -/
structure GPSFix where
  timestamp : Int
  lat : Rat
  lon : Rat
  ele : Rat
  deriving DecidableEq, Repr

/-- The closed set of skip reasons (spec §3). -/
inductive SkipReason where
  | outOfTrackRange
  | missingTimestamp
  deriving DecidableEq, Repr

/-- An interpolated position (spec §4.3). -/
structure Position where
  lat : Rat
  lon : Rat
  ele : Rat
  deriving DecidableEq, Repr

/-- Modelled from the spec: the bracketing-pair search of `interpolate`
(spec §4.3), whose implementation (in the external `geotag_pt` library) is
absent from src/.  Walks the ordered fixes looking for either an exact
timestamp match (degenerate case, returns the fix paired with itself) or a
consecutive pair `(fixBefore, fixAfter)` with
`fixBefore.timestamp <= t <= fixAfter.timestamp`. -/
def searchBracket (t : Int) : List GPSFix → Option (GPSFix × GPSFix)
  | [] => none
  | a :: rest =>
    if t = a.timestamp then some (a, a)
    else
      match rest with
      | [] => none
      | b :: _ =>
        if a.timestamp ≤ t ∧ t ≤ b.timestamp then some (a, b)
        else searchBracket t rest

/-- Modelled from the spec: `interpolate(track, correctedTimestamp)`
(spec §4.3) of the external `geotag_pt` library, absent from src/.  Fails
with `OUT_OF_TRACK_RANGE` when no bracketing pair exists; otherwise linearly
interpolates latitude, longitude and elevation with
`t = (ts - before.ts) / (after.ts - before.ts)` (0 in the degenerate
exact-match case, avoiding the division by zero). -/
def interpolate (track : List GPSFix) (t : Int) : Except SkipReason Position :=
  match searchBracket t track with
  | none => .error .outOfTrackRange
  | some (a, b) =>
    let frac : Rat :=
      if b.timestamp = a.timestamp then 0
      else ((t - a.timestamp : Int) : Rat) / ((b.timestamp - a.timestamp : Int) : Rat)
    .ok ⟨a.lat + frac * (b.lat - a.lat),
         a.lon + frac * (b.lon - a.lon),
         a.ele + frac * (b.ele - a.ele)⟩

/-! ### Timezone strings (src/timezones.py) -/

/-- The fixed timezone list of src/timezones.py lines 12-18. -/
def TIMEZONES : List String :=
  ["UTC-12:00", "UTC-11:00", "UTC-10:00", "UTC-09:30", "UTC-09:00", "UTC-08:00",
   "UTC-07:00", "UTC-06:00", "UTC-05:00", "UTC-04:00", "UTC-03:30", "UTC-03:00",
   "UTC-02:30", "UTC-02:00", "UTC-01:00", "UTC+00:00", "UTC+01:00", "UTC+02:00",
   "UTC+03:00", "UTC+03:30", "UTC+04:00", "UTC+04:30", "UTC+05:00", "UTC+05:30",
   "UTC+05:45", "UTC+06:00", "UTC+06:30", "UTC+07:00", "UTC+08:00", "UTC+08:45",
   "UTC+09:00", "UTC+09:30", "UTC+10:00", "UTC+10:30", "UTC+11:00", "UTC+12:00",
   "UTC+12:45", "UTC+13:00", "UTC+13:45", "UTC+14:00"]

/-- Value of a digit string, as consumed by Python `int()` on the inputs that
occur here (`"09"`, `"30"`, ...). -/
def digitsToNat (cs : List Char) : Nat :=
  cs.foldl (fun a c => a * 10 + (c.toNat - 48)) 0

/-- Python `int(s)` restricted to the optionally signed decimal strings that
`Timezone.__init__` feeds it (`"-09"`, `"+00"`, `"30"`, ...). -/
def pyIntChars : List Char → Int
  | '-' :: cs => -(digitsToNat cs : Int)
  | '+' :: cs => (digitsToNat cs : Int)
  | cs => (digitsToNat cs : Int)

/-- Python `name.replace('UTC', '')`: delete every (non-overlapping,
left-to-right) occurrence of `UTC`. -/
def removeUTC : List Char → List Char
  | 'U' :: 'T' :: 'C' :: rest => removeUTC rest
  | c :: rest => c :: removeUTC rest
  | [] => []

/-- Python `str.split(':')`: split into the (possibly empty) groups between
colons; the empty string yields one empty group. -/
def splitOnColon : List Char → List (List Char)
  | [] => [[]]
  | ':' :: rest => [] :: splitOnColon rest
  | c :: rest =>
    match splitOnColon rest with
    | g :: gs => (c :: g) :: gs
    | [] => [[c]]

/-- Shallow embedding of `Timezone.__init__` (src/timezones.py lines 25-29;
`TimezoneWorkaround` in src/models/config_model.py lines 51-55 is identical):
`time = name.replace('UTC', '').split(':')` and
`timedelta(hours=int(time[0]), minutes=int(time[1]))`, expressed as the
resulting UTC offset in minutes (`hours*60 + minutes`). -/
def tzUtcOffsetMinutes (name : String) : Int :=
  match splitOnColon (removeUTC name.data) with
  | [h, m] => pyIntChars h * 60 + pyIntChars m
  | _ => 0

/-! ### Image enumeration (`_get_images`, src/controller.py lines 31-36) -/

/-- A file-system entry: a regular file or a directory with an ordered list
of children.  Names are single path components. -/
inductive FsEntry where
  | file (name : String)
  | dir (name : String) (children : List FsEntry)

/-- The name (final path component) of an entry. -/
def FsEntry.name : FsEntry → String
  | .file n => n
  | .dir n _ => n

/-- Whether an entry is a regular file (`Path.is_file`). -/
def FsEntry.isFile : FsEntry → Bool
  | .file _ => true
  | .dir _ _ => false

mutual
/-- All proper descendants of an entry, depth first (none for a file). -/
def rglobEntry : FsEntry → List FsEntry
  | .file _ => []
  | .dir _ cs => rglobList cs

/-- Embedding of `list(directory.rglob("*"))`: every entry below a directory — files and
subdirectories alike — each followed by its own descendants. -/
def rglobList : List FsEntry → List FsEntry
  | [] => []
  | c :: rest => c :: (rglobEntry c ++ rglobList rest)
end

/-- Relation: `e` is a proper descendant of a directory entry. -/
inductive Desc : FsEntry → FsEntry → Prop where
  | here {n : String} {cs : List FsEntry} {e : FsEntry} :
      e ∈ cs → Desc e (.dir n cs)
  | deeper {n : String} {cs : List FsEntry} {c e : FsEntry} :
      c ∈ cs → Desc e c → Desc e (.dir n cs)

/-- Index of the last `'.'` in a character list (Python `str.rfind('.')`). -/
def lastDotIdx : List Char → Option Nat
  | [] => none
  | c :: rest =>
    match lastDotIdx rest with
    | some i => some (i + 1)
    | none => if c = '.' then some 0 else none

/-- Embedding of `pathlib.PurePath.suffix`: the final `'.'`-suffix of a name, empty when
the last dot is the first character or the last character. -/
def pySuffix (name : String) : String :=
  let cs := name.data
  match lastDotIdx cs with
  | some i => if 0 < i ∧ i + 1 < cs.length then String.mk (cs.drop i) else ""
  | none => ""

/-- Python `str.lower()` on the ASCII strings involved here. -/
def strLower (s : String) : String := String.mk (s.data.map Char.toLower)

/-- The filter of `_get_images`: `file.suffix.lower() in extensions` with
`extensions = ['.jpg', '.jpeg', '.png']`. -/
def extOk (name : String) : Bool :=
  [".jpg", ".jpeg", ".png"].contains (strLower (pySuffix name))

/-- Shallow embedding of `_get_images(directory)` (src/controller.py lines
31-36; identical in src/main.py lines 36-41).  `none` models a non-existent
path; `some (.file _)` an existing path that is not a directory: both return
`[]`.  Otherwise the listing of `rglob("*")` is filtered by suffix — with no
check that an entry is a regular file. -/
def pyGetImages : Option FsEntry → List FsEntry
  | none => []
  | some (.file _) => []
  | some (.dir _ cs) => (rglobList cs).filter (fun e => extOk e.name)

/-! ### User input validation (src/models/user_input_model.py) -/

/-- The fields of `UserInputModel` consulted by `UserInputModelValidator`
(src/models/user_input_model.py lines 56-81). -/
structure UserInputModel where
  importDirectory : String
  gpxFilepath : String
  gpsPhotoAvailable : Bool
  gpsPhotoFilepath : String
  gpsDate : String
  gpsTime : String
  gpsTimezoneIndex : Int
  cameraTimezoneIndex : Int
  exportDirectory : String
  ifdoEnable : Bool
  imageSetName : String
  imageContext : String
  projectName : String
  eventName : String
  piName : String
  piORCID : String
  collectorName : String
  collectorORCID : String
  organisation : String
  license : String
  distanceAboveGround : String
  imageAbstract : String
  exportKML : Bool
  attributionExport : Bool

/-- Oracle for the external predicates the individual validators consult:
`Path.exists` / `is_dir` / `is_file` on the `file://`-stripped path, and
whether `datetime.date.fromisoformat`, `datetime.time.fromisoformat` and
`float()` accept a string. -/
structure ValidationEnv where
  pathExists : String → Bool
  pathIsDir : String → Bool
  pathIsFile : String → Bool
  isValidDate : String → Bool
  isValidTime : String → Bool
  isValidFloat : String → Bool

/-- Embedding of `s.replace("file://", "")` (removes every occurrence, like Python
`str.replace`). -/
def stripUrl (s : String) : String := s.replace "file://" ""

/-- The ORCID pattern `^\d{4}-\d{4}-\d{4}-\d{3}[\dX]$` of
`_validate_pi_orcid` / `_validate_collectors_orcid`. -/
def orcidFormat (s : String) : Bool :=
  match s.data with
  | [a, b, c, d, h1, e, f, g, h, h2, i, j, k, l, h3, m, n, o, p] =>
    [a, b, c, d, e, f, g, h, i, j, k, l, m, n, o].all Char.isDigit
      && h1 = '-' && h2 = '-' && h3 = '-' && (p.isDigit || p = 'X')
  | _ => false

/-- Embedding of `_validate_import_directory` (lines 410-419). -/
def validateImportDirectory (env : ValidationEnv) (importDir : String) : Option String :=
  if importDir = "" then some "Import directory is empty"
  else if env.pathExists (stripUrl importDir) = false then some "Import directory does not exist"
  else if env.pathIsDir (stripUrl importDir) = false then some "Import directory is not a directory"
  else none

/-- Embedding of `_validate_gpx_file` (lines 421-430). -/
def validateGpxFile (env : ValidationEnv) (gpxFp : String) : Option String :=
  if gpxFp = "" then some "GPX file path is empty"
  else if env.pathExists (stripUrl gpxFp) = false then some "GPX file does not exist"
  else if env.pathIsFile (stripUrl gpxFp) = false then some "GPX file is not a file"
  else none

/-- Embedding of `_validate_gps_photo_available` (lines 432-434): unconditionally `None`. -/
def validateGpsPhotoAvailable (_ : Bool) : Option String := none

/-- Embedding of `_validate_gps_photo_file` (lines 436-447). -/
def validateGpsPhotoFile (env : ValidationEnv) (avail : Bool) (fp : String) : Option String :=
  if avail = false then none
  else if fp = "" then some "GPS photo file path is empty"
  else if env.pathExists (stripUrl fp) = false then some "GPS photo file does not exist"
  else if env.pathIsFile (stripUrl fp) = false then some "GPS photo file is not a file"
  else none

/-- Embedding of `_validate_gps_date` (lines 449-459). -/
def validateGpsDate (env : ValidationEnv) (avail : Bool) (d : String) : Option String :=
  if avail = false then none
  else if d = "" then some "GPS Date field is empty"
  else if env.isValidDate d = false then some "GPS Date field is not a valid date"
  else none

/-- Embedding of `_validate_gps_time` (lines 461-471). -/
def validateGpsTime (env : ValidationEnv) (avail : Bool) (t : String) : Option String :=
  if avail = false then none
  else if t = "" then some "GPS Time field is empty"
  else if env.isValidTime t = false then some "GPS Time field is not a valid time"
  else none

/-- Embedding of `_validate_gps_timezone` (lines 473-477). -/
def validateGpsTimezone (idx : Int) : Option String :=
  if idx < 0 then some "GPS Timezone field is empty" else none

/-- Embedding of `_validate_camera_timezone` (lines 479-483). -/
def validateCameraTimezone (idx : Int) : Option String :=
  if idx < 0 then some "Camera Timezone field is empty" else none

/-- Embedding of `_validate_output_directory` (lines 485-494). -/
def validateOutputDirectory (env : ValidationEnv) (outDir : String) : Option String :=
  if outDir = "" then some "Export directory is empty"
  else if env.pathExists (stripUrl outDir) = false then some "Export directory does not exist"
  else if env.pathIsDir (stripUrl outDir) = false then some "Export directory is not a directory"
  else none

/-- Embedding of `_validate_export_kml` (lines 496-498): unconditionally `None`. -/
def validateExportKml (_ : Bool) : Option String := none

/-- Embedding of `_validate_attribution_export` (lines 500-502): unconditionally `None`. -/
def validateAttributionExport (_ : Bool) : Option String := none

/-- Embedding of `_validate_pi_name` (lines 504-508). -/
def validatePiName (attr : Bool) (s : String) : Option String :=
  if attr && s = "" then some "PI name is empty" else none

/-- Embedding of `_validate_pi_orcid` (lines 510-516). -/
def validatePiOrcid (attr : Bool) (s : String) : Option String :=
  if attr && s ≠ "" && orcidFormat s = false then
    some "Principal Investigator ORCID is not in the correct format"
  else none

/-- Embedding of `_validate_collectors_name` (lines 518-522). -/
def validateCollectorsName (attr : Bool) (s : String) : Option String :=
  if attr && s = "" then some "Collector's name is empty" else none

/-- Embedding of `_validate_collectors_orcid` (lines 524-530). -/
def validateCollectorsOrcid (attr : Bool) (s : String) : Option String :=
  if attr && s ≠ "" && orcidFormat s = false then
    some "Collector's ORCID is not in the correct format"
  else none

/-- Embedding of `_validate_organisation` (lines 532-536). -/
def validateOrganisation (attr : Bool) (s : String) : Option String :=
  if attr && s = "" then some "Copyright owner is empty" else none

/-- Embedding of `_validate_license` (lines 538-542). -/
def validateLicense (attr : Bool) (s : String) : Option String :=
  if attr && s = "" then some "License is empty" else none

/-- Embedding of `_validate_ifdo_enable` (lines 544-546): unconditionally `None`. -/
def validateIfdoEnable (_ : Bool) : Option String := none

/-- Embedding of `_validate_image_set_name` (lines 548-552). -/
def validateImageSetName (ifdo : Bool) (s : String) : Option String :=
  if ifdo && s = "" then some "Image set name is empty" else none

/-- Embedding of `_validate_image_context` (lines 554-558). -/
def validateImageContext (ifdo : Bool) (s : String) : Option String :=
  if ifdo && s = "" then some "Image context is empty" else none

/-- Embedding of `_validate_project_name` (lines 560-564). -/
def validateProjectName (ifdo : Bool) (s : String) : Option String :=
  if ifdo && s = "" then some "Project name is empty" else none

/-- Embedding of `_validate_event_name` (lines 566-570). -/
def validateEventName (ifdo : Bool) (s : String) : Option String :=
  if ifdo && s = "" then some "Event name is empty" else none

/-- Embedding of `_validate_distance_above_ground` (lines 572-581). -/
def validateDistanceAboveGround (env : ValidationEnv) (ifdo : Bool) (s : String) : Option String :=
  if ifdo = false then none
  else if s = "" then some "Distance above ground is empty"
  else if env.isValidFloat s = false then some "Distance above ground is not a number"
  else none

/-- Embedding of `_validate_image_abstract` (lines 583-587). -/
def validateImageAbstract (ifdo : Bool) (s : String) : Option String :=
  if ifdo && s = "" then some "Image abstract is empty" else none

/-- Embedding of `_validate_input_path_not_output_path` (lines 589-593): compares the raw
(unstripped) strings. -/
def validateInputPathNotOutputPath (inp outp : String) : Option String :=
  if inp = outp then some "Input directory and output directory cannot be the same"
  else none

/-- The results of the individual validators, in the order of the
`main_validators` dictionary of `UserInputModelValidator.validate`
(src/models/user_input_model.py lines 374-401). -/
def validatorResults (env : ValidationEnv) (m : UserInputModel) : List (Option String) :=
  [validateImportDirectory env m.importDirectory,
   validateGpxFile env m.gpxFilepath,
   validateGpsPhotoAvailable m.gpsPhotoAvailable,
   validateGpsPhotoFile env m.gpsPhotoAvailable m.gpsPhotoFilepath,
   validateGpsDate env m.gpsPhotoAvailable m.gpsDate,
   validateGpsTime env m.gpsPhotoAvailable m.gpsTime,
   validateGpsTimezone m.gpsTimezoneIndex,
   validateCameraTimezone m.cameraTimezoneIndex,
   validateOutputDirectory env m.exportDirectory,
   validateExportKml m.exportKML,
   validateAttributionExport m.attributionExport,
   validatePiName m.attributionExport m.piName,
   validatePiOrcid m.attributionExport m.piORCID,
   validateCollectorsName m.attributionExport m.collectorName,
   validateCollectorsOrcid m.attributionExport m.collectorORCID,
   validateOrganisation m.attributionExport m.organisation,
   validateLicense m.attributionExport m.license,
   validateIfdoEnable m.ifdoEnable,
   validateImageSetName m.ifdoEnable m.imageSetName,
   validateImageContext m.ifdoEnable m.imageContext,
   validateProjectName m.ifdoEnable m.projectName,
   validateEventName m.ifdoEnable m.eventName,
   validateDistanceAboveGround env m.ifdoEnable m.distanceAboveGround,
   validateImageAbstract m.ifdoEnable m.imageAbstract,
   validateInputPathNotOutputPath m.importDirectory m.exportDirectory]

/-- Shallow embedding of `UserInputModelValidator.validate`
(src/models/user_input_model.py lines 361-408):
`errors = list({x(*y) ...})` — the distinct results — then
`if len(errors) > 1: errors.remove(None); latest_errors = errors; return
False` else `latest_errors = []; return True`.  Returns
`(validation passed, latest_errors)`.  The Python set is modelled by
`List.dedup`; set iteration order is arbitrary in Python, and no property
below depends on the order of `latest_errors`.  `latestErrorsOf` is the
`errors.remove(None)` step, yielding the remaining (string) messages. -/
def latestErrorsOf (results : List (Option String)) : List String :=
  ((results.dedup).erase none).filterMap id

/-- Shallow embedding of the branch structure of
`UserInputModelValidator.validate`: distinct results, the length test, and
the recorded outcome pair. -/
def validateModel (env : ValidationEnv) (m : UserInputModel) : Bool × List String :=
  if (validatorResults env m).dedup.length > 1 then
    (false, latestErrorsOf (validatorResults env m))
  else (true, [])

/-- Result of `MainController.run_geotagging_process` (src/controller.py
lines 325-391): whether the worker thread was created and started, and the
feedback lines recorded after the validation step. -/
structure StartResult where
  workerStarted : Bool
  feedbackLines : List String
  deriving DecidableEq, Repr

/-- Shallow embedding of the validation gate of
`MainController.run_geotagging_process` (src/controller.py lines 336-343):
on failure, the feedback gets `"Validation failed"` plus `latest_errors` and
the method returns before any worker or thread is constructed; on success the
worker thread is created and started and the two status lines are added. -/
def runGeotaggingProcess (env : ValidationEnv) (m : UserInputModel) : StartResult :=
  let v := validateModel env m
  if v.1 = false then
    { workerStarted := false, feedbackLines := "Validation failed" :: v.2 }
  else
    { workerStarted := true,
      feedbackLines :=
        [if m.gpsPhotoAvailable then
           "Geotagging images using GPS photo synchronization..."
         else
           "Geotagging images assuming camera and GPS times are synchronized...",
         "Processing images..."] }

/-! ### Concrete inputs used by witnesses and counterexamples -/

/-- Worker configuration with IFDO export and KML export disabled. -/
def cfg0 : WorkerConfig := ⟨false, false⟩

/-- An image for which every external call succeeds: it gets tagged. -/
def envTagged : ImageEnv :=
  ⟨"a.jpg", "a.jpg", .ok (), .ok (), .ok (), true, .ok (), .ok (), .ok (), .ok ()⟩

/-- An image whose corrected timestamp is outside the track range:
`generate_gps_tags` raises `IndexError`. -/
def envSkipRange : ImageEnv :=
  ⟨"b.jpg", "b.jpg", .ok (), .error .indexError, .ok (), true, .ok (), .ok (), .ok (), .ok ()⟩

/-- An image with no embedded timestamp: `generate_gps_tags` raises
`AssertionError`. -/
def envSkipNoTime : ImageEnv :=
  ⟨"d.jpg", "d.jpg", .ok (), .error .assertionError, .ok (), true, .ok (), .ok (), .ok (), .ok ()⟩

/-- An image whose copy step (`shutil.copy2`) raises an `OSError`. -/
def envCopyFail : ImageEnv :=
  ⟨"c.jpg", "c.jpg", .ok (), .ok (), .ok (), true, .error .osError, .ok (), .ok (), .ok ()⟩

/-- A two-fix track: `t0 = 0` at (0,0) and `t1 = 60` at (1,1). -/
def demoTrack : List GPSFix := [⟨0, 0, 0, 0⟩, ⟨60, 1, 1, 10⟩]

/-- A validation environment in which every path exists and every
date/time/float string parses. -/
def envAllTrue : ValidationEnv :=
  ⟨fun _ => true, fun _ => true, fun _ => true, fun _ => true, fun _ => true, fun _ => true⟩

/-- A user-input model that passes every validator (under `envAllTrue`). -/
def modelOkay : UserInputModel :=
  { importDirectory := "/in", gpxFilepath := "/t.gpx", gpsPhotoAvailable := false,
    gpsPhotoFilepath := "", gpsDate := "", gpsTime := "", gpsTimezoneIndex := 0,
    cameraTimezoneIndex := 0, exportDirectory := "/out", ifdoEnable := false,
    imageSetName := "", imageContext := "", projectName := "", eventName := "",
    piName := "", piORCID := "", collectorName := "", collectorORCID := "",
    organisation := "", license := "CC BY 4.0", distanceAboveGround := "",
    imageAbstract := "", exportKML := false, attributionExport := false }

/-- Variant of `modelOkay` with the export directory set equal to the import
directory. -/
def modelSamePaths : UserInputModel := { modelOkay with exportDirectory := "/in" }

/-! ### Helper lemmas about `_process_image` and `run` -/

/-- Case analysis of `_process_image`: it returns without an exception
exactly when the image is benign; in that case the copy happened exactly
when the image is tagged; and regardless, the only signals it emits are
`error_msgs`. -/
theorem processImage_spec (cfg : WorkerConfig) (env : ImageEnv) :
    ((processImage cfg env).exc = none ↔ benign cfg env = true)
    ∧ (benign cfg env = true →
        (processImage cfg env).copied
          = if tagged env = true then [env.relPath] else [])
    ∧ (∀ e ∈ (processImage cfg env).events, ∃ s, e = .errorMsg s) := by
  obtain ⟨ifdoE, kmlE⟩ := cfg
  obtain ⟨p, rp, gm, gt, mk, pe, cp, st, ifd, km⟩ := env
  cases gm with
  | error e => simp [processImage, benign, tagged]
  | ok u =>
    cases gt with
    | error e => cases e <;> simp [processImage, benign, tagged]
    | ok u2 =>
      cases mk with
      | error e => simp [processImage, benign, tagged]
      | ok u3 =>
        cases pe with
        | false => simp [processImage, benign, tagged]
        | true =>
          cases cp with
          | error e => simp [processImage, benign, tagged]
          | ok u4 =>
            cases st with
            | error e => simp [processImage, benign, tagged]
            | ok u5 =>
              cases ifdoE with
              | false =>
                cases kmlE with
                | false => simp [processImage, benign, tagged]
                | true =>
                  cases km with
                  | error e => cases e <;> simp [processImage, benign, tagged]
                  | ok u6 => simp [processImage, benign, tagged]
              | true =>
                cases ifd with
                | error e => simp [processImage, benign, tagged]
                | ok u6 =>
                  cases kmlE with
                  | false => simp [processImage, benign, tagged]
                  | true =>
                    cases km with
                    | error e => cases e <;> simp [processImage, benign, tagged]
                    | ok u7 => simp [processImage, benign, tagged]

/-- A list of `error_msgs` signals contains no `progress` payloads. -/
theorem progressEvents_of_errorMsgs :
    ∀ (l : List Event), (∀ e ∈ l, ∃ s, e = .errorMsg s) → progressEvents l = [] := by
  intro l
  induction l with
  | nil => intro _; rfl
  | cons e r ih =>
    intro h
    obtain ⟨s, rfl⟩ := h e (List.mem_cons_self e r)
    exact ih fun x hx => h x (List.mem_cons_of_mem _ hx)

/-- A list of `error_msgs` signals contains no `finished` signal. -/
theorem filter_finished_of_errorMsgs :
    ∀ (l : List Event), (∀ e ∈ l, ∃ s, e = .errorMsg s) →
      l.filter isFinishedEv = [] := by
  intro l
  induction l with
  | nil => intro _; rfl
  | cons e r ih =>
    intro h
    obtain ⟨s, rfl⟩ := h e (List.mem_cons_self e r)
    simp only [List.filter_cons, isFinishedEv]
    exact ih fun x hx => h x (List.mem_cons_of_mem _ hx)

/-- Function `progressEvents` distributes over append. -/
theorem progressEvents_append :
    ∀ (l₁ l₂ : List Event),
      progressEvents (l₁ ++ l₂) = progressEvents l₁ ++ progressEvents l₂ := by
  intro l₁ l₂
  induction l₁ with
  | nil => rfl
  | cons e r ih => cases e <;> simp [progressEvents, ih]

/-- The `run` loop escapes with no exception exactly when every image of the
batch is benign. -/
theorem runFrom_exc_none_iff (cfg : WorkerConfig) (total : Nat) :
    ∀ (envs : List ImageEnv) (idx : Nat),
      (runFrom cfg total idx envs).exc = none ↔ ∀ e ∈ envs, benign cfg e = true := by
  intro envs
  induction envs with
  | nil => intro idx; simp [runFrom]
  | cons env rest ih =>
    intro idx
    rw [runFrom]
    rcases hexc : (processImage cfg env).exc with _ | e
    · have hbenign : benign cfg env = true := (processImage_spec cfg env).1.mp hexc
      simp only [ih (idx + 1), List.mem_cons]
      constructor
      · intro h e he
        rcases he with rfl | he
        · exact hbenign
        · exact h e he
      · intro h e he
        exact h e (Or.inr he)
    · simp only [Option.some_ne_none, false_iff]
      intro h
      have h1 := (processImage_spec cfg env).1.mpr (h env (List.mem_cons_self env rest))
      rw [hexc] at h1
      exact Option.noConfusion h1

/-- When every image of the batch is benign, the `run` loop emits one
`progress(idx, total)` signal per image, copies exactly the tagged images in
order, and ends with a single `finished` signal. -/
theorem runFrom_benign_spec (cfg : WorkerConfig) (total : Nat) :
    ∀ (envs : List ImageEnv) (idx : Nat), (∀ e ∈ envs, benign cfg e = true) →
      progressEvents (runFrom cfg total idx envs).events
          = (List.range' idx envs.length).map (fun i => (i, total))
      ∧ (runFrom cfg total idx envs).copied
          = (envs.filter (fun e => tagged e)).map (fun e => e.relPath)
      ∧ (runFrom cfg total idx envs).events.filter isFinishedEv
          = [.finished finishedMsg]
      ∧ (runFrom cfg total idx envs).events.getLast? = some (.finished finishedMsg) := by
  intro envs
  induction envs with
  | nil =>
    intro idx _
    refine ⟨rfl, rfl, rfl, rfl⟩
  | cons env rest ih =>
    intro idx hb
    have hbenign : benign cfg env = true := hb env (List.mem_cons_self env rest)
    have hbrest : ∀ e ∈ rest, benign cfg e = true :=
      fun e he => hb e (List.mem_cons_of_mem _ he)
    have hexc : (processImage cfg env).exc = none :=
      (processImage_spec cfg env).1.mpr hbenign
    have hcopied := (processImage_spec cfg env).2.1 hbenign
    have hevents := (processImage_spec cfg env).2.2
    obtain ⟨ihp, ihc, ihf, ihl⟩ := ih (idx + 1) hbrest
    rw [runFrom, hexc]
    refine ⟨?_, ?_, ?_, ?_⟩
    · rw [progressEvents_append, progressEvents_append,
        progressEvents_of_errorMsgs _ hevents, ihp, List.length_cons,
        List.range'_succ]
      rfl
    · rw [hcopied, ihc, List.filter_cons]
      cases htag : tagged env <;> simp
    · rw [List.filter_append, List.filter_append,
        filter_finished_of_errorMsgs _ hevents, ihf]
      rfl
    · have hne : (runFrom cfg total (idx + 1) rest).events ≠ [] := by
        intro hnil
        rw [hnil] at ihl
        exact Option.noConfusion ihl
      rw [List.append_assoc, List.getLast?_append_of_ne_nil _ ?_,
        List.getLast?_append_of_ne_nil _ hne, ihl]
      intro hnil
      rcases List.append_eq_nil.mp hnil with ⟨_, h2⟩
      exact hne h2

/-- A tag-generation skip (out-of-range or missing-timestamp) is never a
tagged image. -/
theorem tagged_eq_false_of_skips (env : ImageEnv)
    (h : skipsAtTagGen env = true) : tagged env = false := by
  obtain ⟨p, rp, gm, gt, mk, pe, cp, st, ifd, km⟩ := env
  cases gt with
  | error e => simp [tagged]
  | ok u => simp [skipsAtTagGen] at h

/-- The feedback log after folding the worker's signals: the initial lines
followed by the text of every `error_msgs` and `finished` signal, in order. -/
theorem foldl_applyEvent_feedback :
    ∀ (evs : List Event) (st : UiState),
      (evs.foldl applyEvent st).feedback = st.feedback ++ evs.filterMap msgOf := by
  intro evs
  induction evs with
  | nil => intro st; simp
  | cons e r ih => intro st; cases e <;> simp [applyEvent, msgOf, ih]

/-! ### Claims about the batch worker -/

/-- C1, counterexample: a failure of `shutil.copy2` while processing a single
image is not caught at the per-image boundary — it escapes `run`, which
therefore never reports completion. -/
theorem copy_failure_escapes_run :
    (runWorker cfg0 [envCopyFail]).exc = some PyExc.osError
    ∧ (runWorker cfg0 [envCopyFail]).events.filter isFinishedEv = [] :=
  ⟨rfl, rfl⟩

/-- C1 (amended): `run` completes (no exception escapes) exactly when every
enumerated image is benign — i.e. raises at most `IndexError` or
`AssertionError` in tag generation, a failed post-`mkdir` existence check, or
`KeyError` in the KML step; and the two tag-generation failures are caught at
the per-image boundary and converted to a single diagnostic line with no copy
performed. -/
theorem run_completes_iff_all_benign :
    (∀ (cfg : WorkerConfig) (envs : List ImageEnv),
      (runWorker cfg envs).exc = none ↔ ∀ e ∈ envs, benign cfg e = true)
    ∧ (∀ (cfg : WorkerConfig) (env : ImageEnv), env.getMetadata = .ok () →
        (env.generateGpsTags = .error .indexError →
          processImage cfg env = ⟨[.errorMsg (rangeMsg env.path)], [], none⟩)
        ∧ (env.generateGpsTags = .error .assertionError →
          processImage cfg env = ⟨[.errorMsg (noTimeMsg env.path)], [], none⟩)) := by
  constructor
  · intro cfg envs
    exact runFrom_exc_none_iff cfg envs.length envs 0
  · intro cfg env hgm
    constructor
    · intro hgt
      simp [processImage, hgm, hgt]
    · intro hgt
      simp [processImage, hgm, hgt]

/-- C1 witness: a batch with one tagged and one out-of-range image completes,
and a missing-timestamp image is converted to a single diagnostic. -/
theorem run_completes_iff_all_benign_witness :
    (runWorker cfg0 [envTagged, envSkipRange]).exc = none
    ∧ processImage cfg0 envSkipNoTime
        = ⟨[.errorMsg (noTimeMsg envSkipNoTime.path)], [], none⟩ :=
  ⟨(run_completes_iff_all_benign.1 cfg0 [envTagged, envSkipRange]).mpr (by decide),
   (run_completes_iff_all_benign.2 cfg0 envSkipNoTime rfl).2 rfl⟩

/-- C2, counterexample: after processing the only file of a one-image batch
the emitted progress pair is `(0, 1)` — the zero-based index of the file just
processed — not the completed count `(1, 1)`. -/
theorem progress_pair_is_zero_based :
    progressEvents (runWorker cfg0 [envTagged]).events = [(0, 1)]
    ∧ ((0, 1) : Nat × Nat) ≠ (1, 1) :=
  ⟨rfl, by decide⟩

/-- C2 (amended): for a benign batch the worker emits exactly one progress
signal after each enumerated file, for skipped files just as for tagged ones,
but the pair is `(i, totalCount)` with `i` the zero-based index of the file —
one less than the number of files completed. -/
theorem progress_emitted_once_per_file_zero_based (cfg : WorkerConfig)
    (envs : List ImageEnv) (hb : ∀ e ∈ envs, benign cfg e = true) :
    progressEvents (runWorker cfg envs).events
      = (List.range envs.length).map (fun i => (i, envs.length)) := by
  rw [List.range_eq_range']
  exact (runFrom_benign_spec cfg envs.length envs 0 hb).1

/-- C2 witness: a two-image batch whose first image is skipped emits exactly
the pairs `(0,2)` and `(1,2)`. -/
theorem progress_emitted_once_per_file_zero_based_witness :
    progressEvents (runWorker cfg0 [envSkipRange, envTagged]).events
      = (List.range 2).map (fun i => (i, 2)) :=
  progress_emitted_once_per_file_zero_based cfg0 [envSkipRange, envTagged] (by decide)

/-- C3, counterexample: the final progress pair of a completed two-image
batch is `(1, 2)`, not `(2, 2)`. -/
theorem final_progress_not_total :
    (progressEvents (runWorker cfg0 [envTagged, envSkipNoTime]).events).getLast?
        = some (1, 2)
    ∧ some ((1, 2) : Nat × Nat) ≠ some ((2, 2) : Nat × Nat) :=
  ⟨rfl, by decide⟩

/-- C3 (amended): for a benign non-empty batch of `N` images the progress
pairs are strictly increasing in their first component, and the final pair is
`(N - 1, N)` — full completion of the bar comes from the separate
thread-finished hook, not from the last progress signal. -/
theorem progress_strictly_increasing_final_pred_total (cfg : WorkerConfig)
    (envs : List ImageEnv) (hb : ∀ e ∈ envs, benign cfg e = true)
    (hne : envs ≠ []) :
    List.Chain' (fun a b => a.1 < b.1) (progressEvents (runWorker cfg envs).events)
    ∧ (progressEvents (runWorker cfg envs).events).getLast?
        = some (envs.length - 1, envs.length) := by
  have hp : progressEvents (runWorker cfg envs).events
      = (List.range envs.length).map (fun i => (i, envs.length)) := by
    rw [List.range_eq_range']
    exact (runFrom_benign_spec cfg envs.length envs 0 hb).1
  constructor
  · rw [hp, List.chain'_map]
    cases hN : envs.length with
    | zero => simp
    | succ n => exact (List.chain'_range_succ _ n).mpr fun m _ => Nat.lt_succ_self m
  · rw [hp, List.getLast?_map, List.getLast?_range,
      if_neg fun h => hne (List.length_eq_zero.mp h)]
    rfl

/-- C3 witness: a three-image batch with two skips has strictly increasing
pairs ending in `(2, 3)`. -/
theorem progress_strictly_increasing_final_pred_total_witness :
    List.Chain' (fun (a b : Nat × Nat) => a.1 < b.1)
        (progressEvents (runWorker cfg0 [envTagged, envSkipRange, envSkipNoTime]).events)
    ∧ (progressEvents
          (runWorker cfg0 [envTagged, envSkipRange, envSkipNoTime]).events).getLast?
        = some (2, 3) :=
  progress_strictly_increasing_final_pred_total cfg0
    [envTagged, envSkipRange, envSkipNoTime] (by decide) (List.cons_ne_nil _ _)

/-- C4: in a benign batch (with distinct relative paths, as enumeration of a
real directory guarantees) no exception escapes, the export tree contains
exactly the tagged images at their mirrored relative paths in order, and an
image skipped for out-of-track-range or missing-timestamp is never copied. -/
theorem skips_never_copied_export_tree_exact (cfg : WorkerConfig)
    (envs : List ImageEnv) (hb : ∀ e ∈ envs, benign cfg e = true)
    (hnd : (envs.map (fun e => e.relPath)).Nodup) :
    (runWorker cfg envs).exc = none
    ∧ (runWorker cfg envs).copied
        = (envs.filter (fun e => tagged e)).map (fun e => e.relPath)
    ∧ ∀ env ∈ envs, skipsAtTagGen env = true →
        env.relPath ∉ (runWorker cfg envs).copied := by
  have hcop := (runFrom_benign_spec cfg envs.length envs 0 hb).2.1
  refine ⟨(runFrom_exc_none_iff cfg envs.length envs 0).mpr hb, hcop, ?_⟩
  intro env henv hskip hmem
  simp only [runWorker] at hmem
  rw [hcop] at hmem
  rcases List.mem_map.mp hmem with ⟨env2, henv2, heq⟩
  have henv2m : env2 ∈ envs := List.mem_of_mem_filter henv2
  have htag2 : tagged env2 = true := (List.mem_filter.mp henv2).2
  have htag : tagged env = false := tagged_eq_false_of_skips env hskip
  have hne2 : env2 = env → False := by
    intro h
    rw [h, htag] at htag2
    exact Bool.noConfusion htag2
  exact hne2 (List.inj_on_of_nodup_map hnd henv2m henv heq)

/-- C4 witness: a three-image batch with an out-of-range and a
missing-timestamp skip copies exactly the tagged image. -/
theorem skips_never_copied_export_tree_exact_witness :
    (runWorker cfg0 [envSkipRange, envTagged, envSkipNoTime]).exc = none
    ∧ (runWorker cfg0 [envSkipRange, envTagged, envSkipNoTime]).copied
        = ([envSkipRange, envTagged, envSkipNoTime].filter (fun e => tagged e)).map
            (fun e => e.relPath)
    ∧ ∀ env ∈ [envSkipRange, envTagged, envSkipNoTime], skipsAtTagGen env = true →
        env.relPath ∉ (runWorker cfg0 [envSkipRange, envTagged, envSkipNoTime]).copied :=
  skips_never_copied_export_tree_exact cfg0 [envSkipRange, envTagged, envSkipNoTime]
    (by decide) (by decide)

/-- C7: every benign batch run — no matter how many images were skipped —
emits the `finished` signal exactly once, as its last signal, and the final
user-visible state has the finished marker in the feedback log and a progress
bar at 100%. -/
theorem run_finishes_once_last_and_bar_full (cfg : WorkerConfig)
    (envs : List ImageEnv) (hb : ∀ e ∈ envs, benign cfg e = true) :
    (runWorker cfg envs).events.filter isFinishedEv = [.finished finishedMsg]
    ∧ (runWorker cfg envs).events.getLast? = some (.finished finishedMsg)
    ∧ (finalUiState (runWorker cfg envs)).progressBar = 100
    ∧ finishedMsg ∈ (finalUiState (runWorker cfg envs)).feedback := by
  obtain ⟨hp, hc, hf, hl⟩ := runFrom_benign_spec cfg envs.length envs 0 hb
  have hfinmem : Event.finished finishedMsg ∈ (runWorker cfg envs).events := by
    apply List.mem_of_mem_filter (p := isFinishedEv)
    simp only [runWorker]
    rw [hf]
    exact List.mem_singleton.mpr rfl
  have hany : (runWorker cfg envs).events.any isFinishedEv = true :=
    List.any_eq_true.mpr ⟨_, hfinmem, rfl⟩
  refine ⟨hf, hl, ?_, ?_⟩
  · simp [finalUiState, hany]
  · simp only [finalUiState, hany, if_true]
    rw [foldl_applyEvent_feedback]
    exact List.mem_append_right _ (List.mem_filterMap.mpr ⟨_, hfinmem, rfl⟩)

/-- C7 witness: a batch in which every image is skipped still finishes once,
last, with a full progress bar and the finished marker logged. -/
theorem run_finishes_once_last_and_bar_full_witness :
    (runWorker cfg0 [envSkipRange, envSkipNoTime]).events.filter isFinishedEv
        = [.finished finishedMsg]
    ∧ (runWorker cfg0 [envSkipRange, envSkipNoTime]).events.getLast?
        = some (.finished finishedMsg)
    ∧ (finalUiState (runWorker cfg0 [envSkipRange, envSkipNoTime])).progressBar = 100
    ∧ finishedMsg ∈ (finalUiState (runWorker cfg0 [envSkipRange, envSkipNoTime])).feedback :=
  run_finishes_once_last_and_bar_full cfg0 [envSkipRange, envSkipNoTime] (by decide)

/-! ### Claims about position interpolation -/

/-- In a time-ordered fix list the head's timestamp bounds the last's. -/
theorem chain_head_le_getLast :
    ∀ (l : List GPSFix) (f0 fn : GPSFix),
      List.Chain' (fun a b => a.timestamp ≤ b.timestamp) l →
      l.head? = some f0 → l.getLast? = some fn → f0.timestamp ≤ fn.timestamp := by
  intro l
  induction l with
  | nil => intro f0 fn _ hh; exact absurd hh (by simp)
  | cons a rest ih =>
    intro f0 fn hc hh hl
    rw [List.head?_cons, Option.some.injEq] at hh
    subst hh
    cases rest with
    | nil =>
      rw [List.getLast?_singleton, Option.some.injEq] at hl
      subst hl
      exact le_refl _
    | cons b rest2 =>
      rw [List.getLast?_cons_cons] at hl
      have hab : a.timestamp ≤ b.timestamp := (List.chain'_cons.mp hc).1
      have hbl : b.timestamp ≤ fn.timestamp :=
        ih b fn (List.chain'_cons.mp hc).2 rfl hl
      exact le_trans hab hbl

/-- The bracketing-pair search fails exactly when the timestamp lies strictly
outside the (time-ordered, non-empty) track's span. -/
theorem searchBracket_none_iff (t : Int) :
    ∀ (l : List GPSFix) (f0 fn : GPSFix),
      l.head? = some f0 → l.getLast? = some fn →
      List.Chain' (fun a b => a.timestamp ≤ b.timestamp) l →
      (searchBracket t l = none ↔ t < f0.timestamp ∨ fn.timestamp < t) := by
  intro l
  induction l with
  | nil => intro f0 fn hh; exact absurd hh (by simp)
  | cons a rest ih =>
    intro f0 fn hh hl hc
    rw [List.head?_cons, Option.some.injEq] at hh
    subst hh
    cases rest with
    | nil =>
      rw [List.getLast?_singleton, Option.some.injEq] at hl
      subst hl
      rw [searchBracket]
      by_cases h1 : t = a.timestamp
      · rw [if_pos h1]
        simp only [Option.some_ne_none, false_iff]
        omega
      · rw [if_neg h1]
        simp only [true_iff]
        omega
    | cons b rest2 =>
      have hl2 : (b :: rest2).getLast? = some fn := by
        rwa [List.getLast?_cons_cons] at hl
      have hab : a.timestamp ≤ b.timestamp := (List.chain'_cons.mp hc).1
      have hc2 := (List.chain'_cons.mp hc).2
      have hbfn : b.timestamp ≤ fn.timestamp :=
        chain_head_le_getLast (b :: rest2) b fn hc2 rfl hl2
      have IH := ih b fn rfl hl2 hc2
      rw [searchBracket]
      by_cases h1 : t = a.timestamp
      · rw [if_pos h1]
        simp only [Option.some_ne_none, false_iff]
        omega
      · rw [if_neg h1]
        by_cases h2 : a.timestamp ≤ t ∧ t ≤ b.timestamp
        · rw [if_pos h2]
          simp only [Option.some_ne_none, false_iff]
          omega
        · rw [if_neg h2]
          rw [IH]
          rw [Decidable.not_and_iff_or_not] at h2
          omega

/-- C5: position interpolation fails with the `OUT_OF_TRACK_RANGE` condition
exactly when the corrected timestamp is strictly before the earliest fix or
strictly after the latest fix of the (time-ordered, non-empty) track — no
extrapolation — and the caller converts the corresponding `IndexError` of
`generate_gps_tags` into a per-image skip with one diagnostic line, no copy
and no escaping exception. -/
theorem interpolate_out_of_range_iff_outside_bounds :
    (∀ (track : List GPSFix) (t : Int) (f0 fn : GPSFix),
      track.head? = some f0 → track.getLast? = some fn →
      List.Chain' (fun a b => a.timestamp ≤ b.timestamp) track →
      (interpolate track t = .error .outOfTrackRange
        ↔ t < f0.timestamp ∨ fn.timestamp < t))
    ∧ (∀ (cfg : WorkerConfig) (env : ImageEnv), env.getMetadata = .ok () →
        env.generateGpsTags = .error .indexError →
        processImage cfg env = ⟨[.errorMsg (rangeMsg env.path)], [], none⟩) := by
  constructor
  · intro track t f0 fn hh hl hc
    rw [← searchBracket_none_iff t track f0 fn hh hl hc]
    unfold interpolate
    rcases searchBracket t track with _ | ⟨a, b⟩
    · simp
    · simp
  · intro cfg env hgm hgt
    simp [processImage, hgm, hgt]

/-- C5 witness: on the two-fix demo track, one second after the last fix the
interpolation signals `OUT_OF_TRACK_RANGE`, and the worker converts the
out-of-range image `envSkipRange` into a skip with one diagnostic. -/
theorem interpolate_out_of_range_iff_outside_bounds_witness :
    interpolate demoTrack 61 = .error .outOfTrackRange
    ∧ processImage cfg0 envSkipRange
        = ⟨[.errorMsg (rangeMsg envSkipRange.path)], [], none⟩ :=
  ⟨(interpolate_out_of_range_iff_outside_bounds.1 demoTrack 61 ⟨0, 0, 0, 0⟩
      ⟨60, 1, 1, 10⟩ rfl rfl
      (List.chain'_cons.mpr (And.intro (by decide) (List.chain'_singleton _)))).mpr
      (by decide),
   interpolate_out_of_range_iff_outside_bounds.2 cfg0 envSkipRange rfl rfl⟩

/-! ### Claim about timezone parsing -/

/-- C6 (code bug): `Timezone('UTC-09:30')` — a member of the `TIMEZONES`
list — produces `timedelta(hours=-9, minutes=+30)`, a UTC offset of
−510 minutes (−8h30m), not the −570 minutes (−9h30m) the string denotes:
the sign is applied to the hours component only, while the positive minutes
are added back.  `'UTC+09:30'` shows the positive case is unaffected. -/
theorem timezone_negative_halfhour_offset_eval :
    "UTC-09:30" ∈ TIMEZONES
    ∧ tzUtcOffsetMinutes "UTC-09:30" = -510
    ∧ tzUtcOffsetMinutes "UTC-09:30" ≠ -(9 * 60 + 30)
    ∧ tzUtcOffsetMinutes "UTC+09:30" = 9 * 60 + 30 := by
  refine ⟨by decide, by decide, by decide, by decide⟩

/-! ### Claims about image enumeration -/

/-- Being a descendant of a directory means being one of its children or a
descendant of one of them. -/
theorem desc_dir_iff (x : FsEntry) (n : String) (cs : List FsEntry) :
    Desc x (.dir n cs) ↔ ∃ c ∈ cs, c = x ∨ Desc x c := by
  constructor
  · intro h
    cases h with
    | here hm => exact ⟨x, hm, Or.inl rfl⟩
    | deeper hc hd => exact ⟨_, hc, Or.inr hd⟩
  · rintro ⟨c, hc, rfl | hd⟩
    · exact .here hc
    · exact .deeper hc hd

/-- Membership in the `rglob("*")` listing of a children list is membership
in the list or descent below one of its members. -/
theorem mem_rglobList (l : List FsEntry) (x : FsEntry) :
    x ∈ rglobList l ↔ ∃ c ∈ l, c = x ∨ Desc x c := by
  have H : ∀ (n : Nat) (l : List FsEntry), sizeOf l ≤ n → ∀ x,
      (x ∈ rglobList l ↔ ∃ c ∈ l, c = x ∨ Desc x c) := by
    intro n
    induction n with
    | zero =>
      intro l hl
      cases l with
      | nil => intro x; simp [rglobList]
      | cons c rest => simp at hl
    | succ n ihn =>
      intro l hl x
      cases l with
      | nil => simp [rglobList]
      | cons c rest =>
        have hrest : sizeOf rest ≤ n := by
          cases c <;> simp at hl <;> omega
        cases c with
        | file nm =>
          rw [rglobList, rglobEntry]
          simp only [List.nil_append]
          rw [List.mem_cons, ihn rest hrest x]
          constructor
          · rintro (h | ⟨c2, hc2, hcx⟩)
            · exact ⟨_, List.mem_cons_self _ _, Or.inl h.symm⟩
            · exact ⟨c2, List.mem_cons_of_mem _ hc2, hcx⟩
          · rintro ⟨c2, hc2, hcx⟩
            rcases List.mem_cons.mp hc2 with rfl | hc3
            · rcases hcx with rfl | hd
              · exact Or.inl rfl
              · cases hd
            · exact Or.inr ⟨c2, hc3, hcx⟩
        | dir nm cs =>
          have hcs : sizeOf cs ≤ n := by
            simp at hl
            omega
          rw [rglobList, rglobEntry]
          rw [List.mem_cons, List.mem_append, ihn rest hrest x, ihn cs hcs x]
          constructor
          · rintro (h | (hcsx | ⟨c2, hc2, hcx⟩))
            · exact ⟨_, List.mem_cons_self _ _, Or.inl h.symm⟩
            · exact ⟨.dir nm cs, List.mem_cons_self _ _,
                Or.inr ((desc_dir_iff x nm cs).mpr hcsx)⟩
            · exact ⟨c2, List.mem_cons_of_mem _ hc2, hcx⟩
          · rintro ⟨c2, hc2, hcx⟩
            rcases List.mem_cons.mp hc2 with rfl | hc3
            · rcases hcx with rfl | hd
              · exact Or.inl rfl
              · exact Or.inr (Or.inl ((desc_dir_iff x nm cs).mp hd))
            · exact Or.inr (Or.inr ⟨c2, hc3, hcx⟩)
  exact H (sizeOf l) l (le_refl _) x

/-- C8, counterexample: `_get_images` on a directory containing only a
subdirectory named `sub.jpg` returns that subdirectory — an entry that is not
a file — because the `rglob("*")` listing is filtered by suffix only. -/
theorem get_images_returns_directory_entry :
    pyGetImages (some (.dir "import" [.dir "sub.jpg" []])) = [.dir "sub.jpg" []]
    ∧ (FsEntry.dir "sub.jpg" []).isFile = false :=
  ⟨rfl, rfl⟩

/-- C8 (amended): image enumeration of an existing directory returns exactly
the entries under it, recursively — regular files and directories alike, as
no file-kind check is made — whose name's final dot-suffix is in
`{.jpg, .jpeg, .png}` compared case-insensitively, in the order of the
recursive listing; a non-existent path or a non-directory yields `[]`. -/
theorem get_images_membership_characterization :
    (∀ (nm : String) (cs : List FsEntry) (x : FsEntry),
      x ∈ pyGetImages (some (.dir nm cs))
        ↔ Desc x (.dir nm cs) ∧ extOk x.name = true)
    ∧ (∀ (nm : String) (cs : List FsEntry),
        pyGetImages (some (.dir nm cs))
          = (rglobList cs).filter (fun e => extOk e.name))
    ∧ pyGetImages none = []
    ∧ (∀ (nm : String), pyGetImages (some (.file nm)) = []) := by
  refine ⟨?_, fun nm cs => rfl, rfl, fun nm => rfl⟩
  intro nm cs x
  rw [pyGetImages, List.mem_filter, mem_rglobList, desc_dir_iff]

/-! ### Claims about user-input validation -/

/-- Validator `_validate_gps_photo_available` always contributes `None`, so `None` is
always among the validator results. -/
theorem none_mem_validatorResults (env : ValidationEnv) (m : UserInputModel) :
    none ∈ validatorResults env m := by
  unfold validatorResults
  exact List.mem_cons_of_mem _ (List.mem_cons_of_mem _ (List.mem_cons_self _ _))

/-- A duplicate-free list all of whose members equal a fixed value has at
most one member. -/
theorem nodup_all_eq_length_le_one {α : Type} {l : List α} {a : α}
    (hnd : l.Nodup) (hall : ∀ x ∈ l, x = a) : l.length ≤ 1 := by
  cases l with
  | nil => exact Nat.zero_le 1
  | cons x r =>
    cases r with
    | nil => exact le_refl 1
    | cons y r2 =>
      exfalso
      have hx : x = a := hall x (List.mem_cons_self _ _)
      have hy : y = a := hall y (List.mem_cons_of_mem _ (List.mem_cons_self _ _))
      have : x ∈ y :: r2 := by
        rw [hx, ← hy]
        exact List.mem_cons_self _ _
      exact (List.nodup_cons.mp hnd).1 this

/-- Method `validate` returns `True` exactly when every individual validator
returned `None`. -/
theorem validateModel_fst_iff (env : ValidationEnv) (m : UserInputModel) :
    (validateModel env m).1 = true ↔ ∀ r ∈ validatorResults env m, r = none := by
  unfold validateModel
  by_cases h : ((validatorResults env m).dedup).length > 1
  · rw [if_pos h]
    simp only [Bool.false_eq_true, false_iff]
    intro hall
    have hle : ((validatorResults env m).dedup).length ≤ 1 :=
      nodup_all_eq_length_le_one (List.nodup_dedup _)
        fun x hx => hall x (List.mem_dedup.mp hx)
    omega
  · rw [if_neg h]
    simp only [true_iff]
    intro r hr
    have hnone : (none : Option String) ∈ (validatorResults env m).dedup :=
      List.mem_dedup.mpr (none_mem_validatorResults env m)
    have hlen : ((validatorResults env m).dedup).length = 1 := by
      have h0 : ((validatorResults env m).dedup).length ≠ 0 := by
        intro h0
        rw [List.length_eq_zero.mp h0] at hnone
        exact (List.not_mem_nil _) hnone
      omega
    obtain ⟨a, ha⟩ := List.length_eq_one.mp hlen
    have hanone : a = none := by
      rw [ha] at hnone
      exact (List.mem_singleton.mp hnone).symm
    have hrdedup : r ∈ (validatorResults env m).dedup := List.mem_dedup.mpr hr
    rw [ha, hanone] at hrdedup
    exact List.mem_singleton.mp hrdedup

/-- Membership in `latestErrorsOf`: exactly the messages among the results. -/
theorem mem_latestErrorsOf (R : List (Option String)) (s : String) :
    s ∈ latestErrorsOf R ↔ some s ∈ R := by
  unfold latestErrorsOf
  rw [List.mem_filterMap]
  constructor
  · rintro ⟨o, ho, hos⟩
    cases o with
    | none => exact Option.noConfusion hos
    | some t =>
      simp only [id_eq, Option.some.injEq] at hos
      subst hos
      exact List.mem_dedup.mp ((List.mem_erase_of_ne (by simp)).mp ho)
  · intro hmem
    exact ⟨some s, (List.mem_erase_of_ne (by simp)).mpr (List.mem_dedup.mpr hmem), rfl⟩

/-- Membership in `latest_errors`: exactly the non-`None` validator results,
and only when validation failed. -/
theorem validateModel_snd_mem_iff (env : ValidationEnv) (m : UserInputModel) (s : String) :
    s ∈ (validateModel env m).2
      ↔ ((validateModel env m).1 = false ∧ some s ∈ validatorResults env m) := by
  unfold validateModel
  by_cases h : ((validatorResults env m).dedup).length > 1
  · rw [if_pos h]
    simp only [true_and]
    exact mem_latestErrorsOf (validatorResults env m) s
  · rw [if_neg h]
    simp

/-- Applying `filterMap id` to a duplicate-free list of options keeps it duplicate-free. -/
theorem nodup_filterMap_id :
    ∀ (l : List (Option String)), l.Nodup → (l.filterMap id).Nodup := by
  intro l
  induction l with
  | nil => intro _; exact List.nodup_nil
  | cons o r ih =>
    intro h
    have hparts := List.nodup_cons.mp h
    cases o with
    | none =>
      show (List.filterMap id r).Nodup
      exact ih hparts.2
    | some t =>
      show (t :: List.filterMap id r).Nodup
      refine List.nodup_cons.mpr ⟨?_, ih hparts.2⟩
      intro hmem
      rcases List.mem_filterMap.mp hmem with ⟨o2, ho2, ho2t⟩
      simp only [id_eq] at ho2t
      subst ho2t
      exact hparts.1 ho2

/-- The list `latestErrorsOf R` is duplicate-free (it comes from a Python set). -/
theorem nodup_latestErrorsOf (R : List (Option String)) :
    (latestErrorsOf R).Nodup := by
  unfold latestErrorsOf
  exact nodup_filterMap_id _
    (List.Nodup.sublist (List.erase_sublist _ _) (List.nodup_dedup _))

/-- The recorded `latest_errors` list is duplicate-free. -/
theorem validateModel_snd_nodup (env : ValidationEnv) (m : UserInputModel) :
    (validateModel env m).2.Nodup := by
  unfold validateModel
  generalize validatorResults env m = R
  split
  · exact nodup_latestErrorsOf R
  · exact List.nodup_nil

/-- C10: `validate` returns `True` exactly when every individual field
validator returns `None`; on `True` the recorded `latest_errors` is empty; on
`False` it holds precisely the distinct non-`None` error messages produced. -/
theorem validate_true_iff_all_validators_none (env : ValidationEnv) (m : UserInputModel) :
    ((validateModel env m).1 = true ↔ ∀ r ∈ validatorResults env m, r = none)
    ∧ ((validateModel env m).1 = true → (validateModel env m).2 = [])
    ∧ (validateModel env m).2.Nodup
    ∧ ∀ s, s ∈ (validateModel env m).2
        ↔ ((validateModel env m).1 = false ∧ some s ∈ validatorResults env m) := by
  refine ⟨validateModel_fst_iff env m, ?_, validateModel_snd_nodup env m,
    fun s => validateModel_snd_mem_iff env m s⟩
  intro htrue
  unfold validateModel at htrue ⊢
  by_cases h : ((validatorResults env m).dedup).length > 1
  · rw [if_pos h] at htrue
    exact Bool.noConfusion htrue
  · rw [if_neg h]

/-- C10 witness: the all-fields-valid model passes validation with no
recorded errors. -/
theorem validate_true_iff_all_validators_none_witness :
    (validateModel envAllTrue modelOkay).1 = true
    ∧ (validateModel envAllTrue modelOkay).2 = [] := by
  have h := validate_true_iff_all_validators_none envAllTrue modelOkay
  have h1 : (validateModel envAllTrue modelOkay).1 = true := h.1.mpr (by decide)
  exact ⟨h1, h.2.1 h1⟩

/-- C9: whenever the import directory string equals the export directory
string, validation fails with the corresponding error recorded, and the
geotagging worker thread is never created. -/
theorem same_import_export_fails_validation_no_worker (env : ValidationEnv)
    (m : UserInputModel) (h : m.importDirectory = m.exportDirectory) :
    (validateModel env m).1 = false
    ∧ "Input directory and output directory cannot be the same"
        ∈ (validateModel env m).2
    ∧ (runGeotaggingProcess env m).workerStarted = false := by
  have hmem : some "Input directory and output directory cannot be the same"
      ∈ validatorResults env m := by
    have hval : validateInputPathNotOutputPath m.importDirectory m.exportDirectory
        = some "Input directory and output directory cannot be the same" := by
      rw [validateInputPathNotOutputPath, if_pos h]
    unfold validatorResults
    rw [← hval]
    simp [List.mem_cons]
  have hfalse : (validateModel env m).1 = false := by
    cases hfst : (validateModel env m).1 with
    | false => rfl
    | true =>
      have hall := (validateModel_fst_iff env m).mp hfst
      exact Option.noConfusion (hall _ hmem)
  refine ⟨hfalse, (validateModel_snd_mem_iff env m _).mpr ⟨hfalse, hmem⟩, ?_⟩
  rw [runGeotaggingProcess, hfalse]
  simp

/-- C9 witness: a model whose import and export directories are both `/in`
fails validation, records the error, and starts no worker. -/
theorem same_import_export_fails_validation_no_worker_witness :
    (validateModel envAllTrue modelSamePaths).1 = false
    ∧ "Input directory and output directory cannot be the same"
        ∈ (validateModel envAllTrue modelSamePaths).2
    ∧ (runGeotaggingProcess envAllTrue modelSamePaths).workerStarted = false :=
  same_import_export_fails_validation_no_worker envAllTrue modelSamePaths rfl

end Geotag
